import Mathlib

/-!
Verification of the Asset-Radar ETL engine (scrape.py) against its
natural-language specification.

The script is embedded shallowly: Python scalar values become the `Val`
inductive type, attribute dictionaries become association lists, the
pagination loop becomes a well-founded recursion over an abstract service
function, and current time (now/cutoff) is passed in explicitly as data.
Fallible Python operations (int(), float(), datetime conversion) become
Option-valued functions; try/except blocks are translated as matches on
those options.  A step of the transformer that would raise an uncaught
exception in Python is represented by the `StepRes.err` constructor and
an `Except.error` result at batch level.
-/

unseal Rat.add Rat.mul Rat.sub Rat.inv Rat.ofScientific

/-- A Python scalar value as it can appear in the decoded ArcGIS JSON:
null, bool, int, float (modelled as an exact rational; the claims under
verification never depend on binary float rounding), or string. -/
inductive Val where
  | vnull
  | vbool (b : Bool)
  | vint (n : Int)
  | vfloat (q : Rat)
  | vstr (s : String)
deriving DecidableEq, Repr

/-- An attribute mapping (Python dict of string keys to scalars).
A key stored with value null and an absent key are observationally
identical in scrape.py (every access goes through dict.get followed by
an is-None test or a truthiness test), so lookups collapse both to
`Val.vnull`. -/
abbrev Attrs := List (String × Val)

/-- dict.get k: the stored value, or null when the key is absent. -/
def attrsGet (a : Attrs) (k : String) : Val :=
  (a.lookup k).getD .vnull

/-- Python truthiness of a scalar. -/
def truthy : Val → Bool
  | .vnull => false
  | .vbool b => b
  | .vint n => n != 0
  | .vfloat q => q != 0
  | .vstr s => s != ""

/-- Python `a or b` on scalars: `a` when truthy, else `b`. -/
def pyOr (a b : Val) : Val :=
  if truthy a then a else b

/-- Helper for string-to-number parsing: the value of a nonempty list of
decimal digits, or none if any character is not a digit. -/
def digitsVal? (cs : List Char) : Option Nat :=
  match cs with
  | [] => none
  | _ =>
    cs.foldl
      (fun acc c =>
        match acc with
        | none => none
        | some n => if c.isDigit then some (n * 10 + (c.toNat - 48)) else none)
      (some 0)

/-- Models Python int(s) on a string: an optional sign followed by
decimal digits; anything else raises ValueError (here: none). -/
def parseIntStr? (s : String) : Option Int :=
  match s.data with
  | '-' :: rest => (digitsVal? rest).map (fun n => -(n : Int))
  | '+' :: rest => (digitsVal? rest).map (fun n => (n : Int))
  | cs => (digitsVal? cs).map (fun n => (n : Int))

/-- Models Python float(s) on a string: an optional sign, then either
digits, digits.digits, digits., or .digits; anything else raises
ValueError (here: none). -/
def parseFloatStr? (s : String) : Option Rat :=
  let core : List Char → Option Rat := fun cs =>
    match cs.splitOn '.' with
    | [whole] => (digitsVal? whole).map (fun n => (n : Rat))
    | [whole, frac] =>
      match whole, frac with
      | [], [] => none
      | [], f => (digitsVal? f).map (fun n => (n : Rat) / (10 : Rat) ^ f.length)
      | w, [] => (digitsVal? w).map (fun n => (n : Rat))
      | w, f =>
        match digitsVal? w, digitsVal? f with
        | some nw, some nf => some ((nw : Rat) + (nf : Rat) / (10 : Rat) ^ f.length)
        | _, _ => none
    | _ => none
  match s.data with
  | '-' :: rest => (core rest).map (fun q => -q)
  | '+' :: rest => core rest
  | cs => core cs

/-- Python int(x) truncates a float toward zero. -/
def ratTrunc (q : Rat) : Int :=
  if q < 0 then ⌈q⌉ else ⌊q⌋

/-- Models Python int(x) on a scalar; none when Python would raise
TypeError or ValueError. -/
def pyInt? : Val → Option Int
  | .vnull => none
  | .vbool b => some (if b then 1 else 0)
  | .vint n => some n
  | .vfloat q => some (ratTrunc q)
  | .vstr s => parseIntStr? s

/-- Models Python float(x) on a scalar; none when Python would raise
TypeError or ValueError. -/
def pyFloat? : Val → Option Rat
  | .vnull => none
  | .vbool b => some (if b then 1 else 0)
  | .vint n => some (n : Rat)
  | .vfloat q => some q
  | .vstr s => parseFloatStr? s

/-- Numeric view used by isinstance(x, (int, float)) tests: bools count
as ints in Python. -/
def numAsRat? : Val → Option Rat
  | .vbool b => some (if b then 1 else 0)
  | .vint n => some (n : Rat)
  | .vfloat q => some q
  | _ => none

/-- Models Python str(x) for the scalar types (float rendering is the
usual decimal form for whole floats; the claims never depend on float
string rendering). -/
def pyStr : Val → String
  | .vnull => "None"
  | .vbool b => if b then "True" else "False"
  | .vint n => toString n
  | .vfloat q => if q.den = 1 then toString q.num ++ ".0" else toString q
  | .vstr s => s

/-- Models Python str.strip(): drop whitespace from both ends. -/
def pyStrip (s : String) : String :=
  String.mk (((s.data.dropWhile Char.isWhitespace).reverse.dropWhile Char.isWhitespace).reverse)

/-- FIELD_MAP from scrape.py: canonical field roles to candidate raw
attribute names, in preference order. -/
def FIELD_MAP : String → List String
  | "id_fields" => ["EVENT_UNIQUE_ID", "OBJECTID"]
  | "date_field" => ["OCC_DATE", "REPORT_DATE"]
  | "year_field" => ["OCC_YEAR"]
  | "month_field" => ["OCC_MONTH"]
  | "day_field" => ["OCC_DAY", "OCC_DOW"]
  | "hour_field" => ["OCC_HOUR"]
  | "neighbourhood_fields" => ["NEIGHBOURHOOD_158", "NEIGHBOURHOOD_140", "HOOD_158", "NEIGHBOURHOOD"]
  | "premise_fields" => ["PREMISES_TYPE", "PREMISE_TYPE"]
  | "lat_fields" => ["LAT_WGS84", "Y"]
  | "lng_fields" => ["LONG_WGS84", "X"]
  | "status_fields" => ["STATUS"]
  | "division_fields" => ["DIVISION"]
  | "location_fields" => ["LOCATION_TYPE"]
  | _ => []

/-- MONTH_NAME_TO_NUM from scrape.py. -/
def MONTH_NAME_TO_NUM : List (String × Int) :=
  [("January", 1), ("February", 2), ("March", 3), ("April", 4),
   ("May", 5), ("June", 6), ("July", 7), ("August", 8),
   ("September", 9), ("October", 10), ("November", 11), ("December", 12)]

/-- PAGE_SIZE from scrape.py. -/
def PAGE_SIZE : Nat := 2000

/-- One raw ArcGIS feature: an attribute mapping plus a geometry
mapping (keys x and y); a missing or null geometry becomes the empty
mapping, which behaves identically under the truthiness test and
dict.get used in the source. -/
structure Feature where
  attributes : Attrs
  geometry : Attrs
deriving DecidableEq, Repr

/-- First non-None value among the candidate attribute keys, else the
default (source: _first_of). -/
def _first_of (attrs : Attrs) (field_names : List String) (dflt : Val := .vnull) : Val :=
  match field_names with
  | [] => dflt
  | name :: rest =>
    match attrsGet attrs name with
    | .vnull => _first_of attrs rest dflt
    | v => v

/-- Convert a month given as a name or a number to an integer
(source: parse_month).  isinstance(x, (int, float)) is true for bools. -/
def parse_month : Val → Int
  | .vbool b => if b then 1 else 0
  | .vint n => n
  | .vfloat q => ratTrunc q
  | .vstr s => (MONTH_NAME_TO_NUM.lookup s).getD 1
  | .vnull => 1

/-- Proleptic Gregorian calendar date (year, month, day) of a day count
relative to 1970-01-01, the classic civil-from-days algorithm written
with truncating integer division exactly as C and Lean Int division
behave. -/
def civilFromDays (z0 : Int) : Int × Int × Int :=
  let z := z0 + 719468
  let era := (if 0 ≤ z then z else z - 146096) / 146097
  let doe := z - era * 146097
  let yoe := (doe - doe / 1460 + doe / 36524 - doe / 146096) / 365
  let y := yoe + era * 400
  let doy := doe - (365 * yoe + yoe / 4 - yoe / 100)
  let mp := (5 * doy + 2) / 153
  let d := doy - (153 * mp + 2) / 5 + 1
  let m := mp + (if mp < 10 then 3 else -9)
  (y + (if m ≤ 2 then 1 else 0), m, d)

/-- Models datetime.fromtimestamp(secs, tz=utc) reduced to its date
components; none when the resulting year leaves the range the datetime
type supports (Python raises ValueError there, which
parse_date_string catches). -/
def fromtimestampDate? (secs : Rat) : Option (Int × Int × Int) :=
  let ymd := civilFromDays ⌊secs / 86400⌋
  if 1 ≤ ymd.1 ∧ ymd.1 ≤ 9999 then some ymd else none

/-- Left-pad a digit string with zeros to the given width. -/
def padLeftZeros (s : String) (w : Nat) : String :=
  if s.length < w then String.mk (List.replicate (w - s.length) '0') ++ s else s

/-- Python format spec 0wd on an integer: zero-padded to total width w,
the sign occupying one column when negative. -/
def padNum (w : Nat) (n : Int) : String :=
  if n < 0 then "-" ++ padLeftZeros (toString (-n)) (w - 1)
  else padLeftZeros (toString n) w

/-- Render a (year, month, day) triple in strftime %Y-%m-%d form. -/
def renderYMD (ymd : Int × Int × Int) : String :=
  padNum 4 ymd.1 ++ "-" ++ padNum 2 ymd.2.1 ++ "-" ++ padNum 2 ymd.2.2

/-- The last branch of parse_date_string: synthesize the date from the
year/month/day components and fall back to January 1 of the current
year when any int() coercion raises. -/
def dateFromComponents (year month day : Val) (nowYear : Int) : String :=
  match pyInt? year, pyInt? month, pyInt? day with
  | some y, some m, some d => padNum 4 y ++ "-" ++ padNum 2 m ++ "-" ++ padNum 2 d
  | _, _, _ => toString nowYear ++ "-01-01"

/-- Produce a clean YYYY-MM-DD date string (source: parse_date_string).
Branches in source order: epoch-millisecond numeric raw date, then a
string raw date of length at least 10, then synthesis from components,
then the fixed default.  now_utc().year is passed in as nowYear. -/
def parse_date_string (raw_date year month day : Val) (nowYear : Int) : String :=
  let fallback :=
    match raw_date with
    | .vstr s =>
      if 10 ≤ s.length then s.take 10
      else dateFromComponents year month day nowYear
    | _ => dateFromComponents year month day nowYear
  match numAsRat? raw_date with
  | some q =>
    if q > 1000000000 then
      match fromtimestampDate? (q / 1000) with
      | some ymd => renderYMD ymd
      | none => fallback
    else fallback
  | none => fallback

/-- Round a rational to the nearest integer, ties to even, as Python
round does. -/
def roundHalfEven (q : Rat) : Int :=
  let f := ⌊q⌋
  let r := q - (f : Rat)
  if r < 1 / 2 then f
  else if 1 / 2 < r then f + 1
  else if f % 2 = 0 then f else f + 1

/-- Python round(x, 6). -/
def pyRound6 (q : Rat) : Rat :=
  (roundHalfEven (q * 1000000) : Rat) / 1000000

/-- The per-category processing context: the category tag and the time
data that scrape.py reads from the clock (cutoff year and month of
now_utc() minus TIME_WINDOW_MONTHS times 30 days, and the current
year).  Time is an input of the embedding. -/
structure Ctx where
  theftType : String
  cutoffYear : Int
  cutoffMonth : Int
  nowYear : Int
deriving DecidableEq, Repr

/-- One clean output record (the dict built by process_features). -/
structure CleanRecord where
  id : String
  type : String
  date : String
  year : Int
  month : Int
  day : Int
  hour : Int
  neighbourhood : String
  premiseType : String
  lat : Rat
  lng : Rat
  status : String
deriving DecidableEq, Repr

/-- Outcome of processing a single raw feature: a record is emitted, or
the feature is skipped under one of the two discard counters, or the
iteration raises an uncaught exception. -/
inductive StepRes where
  | emit (r : CleanRecord)
  | skipCoords
  | skipDate
  | err
deriving DecidableEq, Repr

/-- Coordinate extraction of process_features: geometry y/x preferred,
falling back to the lat/lng attribute candidates when either is
missing, then coerced with float() where any failure zeroes both. -/
def resolveCoords (f : Feature) : Rat × Rat :=
  let glat := attrsGet f.geometry "y"
  let glng := attrsGet f.geometry "x"
  let rlat :=
    if glat = .vnull ∨ glng = .vnull then _first_of f.attributes (FIELD_MAP "lat_fields")
    else glat
  let rlng :=
    if glat = .vnull ∨ glng = .vnull then _first_of f.attributes (FIELD_MAP "lng_fields")
    else glng
  match (if rlat = .vnull then some 0 else pyFloat? rlat),
        (if rlng = .vnull then some 0 else pyFloat? rlng) with
  | some a, some b => (a, b)
  | _, _ => (0, 0)

/-- The 6-month window test of process_features: true means the record
is discarded.  int(year) failing (a truthy year string that is not an
integer literal) is caught and the record kept, matching the
try/except around the comparison. -/
def windowSkip (ctx : Ctx) (year : Val) (month : Int) : Bool :=
  match (if truthy year then pyInt? year else some 0) with
  | none => false
  | some record_year =>
    let record_month := if month ≠ 0 then month else 0
    decide (record_year * 100 + record_month < ctx.cutoffYear * 100 + ctx.cutoffMonth)

/-- The tail of the per-feature loop body after the coordinate checks:
field resolution, month and date normalization, the window test, and
the record construction.  The final int() coercions of year, day and
hour sit outside any try block in the source, so their failure is an
uncaught exception (StepRes.err). -/
def emitOrSkip (ctx : Ctx) (idx : Nat) (f : Feature) (lat lng : Rat) : StepRes :=
  let attrs := f.attributes
  let record_id := _first_of attrs (FIELD_MAP "id_fields") (.vstr (toString idx))
  let raw_date := _first_of attrs (FIELD_MAP "date_field") (.vstr "")
  let year := _first_of attrs (FIELD_MAP "year_field") (.vint ctx.nowYear)
  let raw_month := _first_of attrs (FIELD_MAP "month_field") (.vint 1)
  let day := _first_of attrs (FIELD_MAP "day_field") (.vint 1)
  let hour := _first_of attrs (FIELD_MAP "hour_field") (.vint 12)
  let neighbourhood := _first_of attrs (FIELD_MAP "neighbourhood_fields") (.vstr "Unknown")
  let premise_type := _first_of attrs (FIELD_MAP "premise_fields") (.vstr "Unknown")
  let status := _first_of attrs (FIELD_MAP "status_fields") (.vstr "Unknown")
  let month := parse_month raw_month
  let date_str := parse_date_string raw_date year (.vint month) day ctx.nowYear
  if windowSkip ctx year month then .skipDate
  else
    match (if truthy year then pyInt? year else some ctx.nowYear),
          (if truthy day then pyInt? day else some 1),
          (if truthy hour then pyInt? hour else some 0) with
    | some ry, some rd, some rh =>
      .emit
        { id := ctx.theftType ++ "-" ++ pyStr record_id
          type := ctx.theftType
          date := date_str
          year := ry
          month := month
          day := rd
          hour := rh
          neighbourhood := pyStrip (pyStr neighbourhood)
          premiseType := pyStrip (pyStr premise_type)
          lat := pyRound6 lat
          lng := pyRound6 lng
          status := pyStrip (pyStr status) }
    | _, _, _ => .err

/-- One iteration of the process_features loop over a single feature.
idx is len(clean_records) at iteration start (the default record id). -/
def processOne (ctx : Ctx) (idx : Nat) (f : Feature) : StepRes :=
  let lat := (resolveCoords f).1
  let lng := (resolveCoords f).2
  if lat = 0 ∧ lng = 0 then .skipCoords
  else if ¬(41 ≤ lat ∧ lat ≤ 57 ∧ -95 ≤ lng ∧ lng ≤ -73) then .skipCoords
  else emitOrSkip ctx idx f lat lng

/-- The feature with coordinates resolving to (0, 0) or outside the
Ontario bounding box: exactly the features process_features discards
under the bad-coordinate counter. -/
def badCoords (f : Feature) : Bool :=
  let lat := (resolveCoords f).1
  let lng := (resolveCoords f).2
  decide ((lat = 0 ∧ lng = 0) ∨ ¬(41 ≤ lat ∧ lat ≤ 57 ∧ -95 ≤ lng ∧ lng ≤ -73))

/-- The loop of process_features: records accumulate in reverse, the
three discard counters thread through, and an uncaught per-feature
exception aborts the whole batch. -/
def processGo (ctx : Ctx) :
    List Feature → List CleanRecord → Nat → Nat → Nat →
    Except Unit (List CleanRecord × Nat × Nat × Nat)
  | [], recs, dcoords, ddate, dother => .ok (recs.reverse, dcoords, ddate, dother)
  | f :: rest, recs, dcoords, ddate, dother =>
    match processOne ctx recs.length f with
    | .emit r => processGo ctx rest (r :: recs) dcoords ddate dother
    | .skipCoords => processGo ctx rest recs (dcoords + 1) ddate dother
    | .skipDate => processGo ctx rest recs dcoords (ddate + 1) dother
    | .err => .error ()

/-- Transform raw features into clean records (source:
process_features).  Returns the clean records and the three discard
counters, or an error when an uncaught exception escapes the loop. -/
def process_features (ctx : Ctx) (raw_features : List Feature) :
    Except Unit (List CleanRecord × Nat × Nat × Nat) :=
  processGo ctx raw_features [] 0 0 0

/-- One page of a service response: the feature list and the
exceededTransferLimit flag, with an absent flag collapsed to false as
data.get("exceededTransferLimit", False) does. -/
structure Page where
  features : List Feature
  exceededTransferLimit : Bool
deriving DecidableEq, Repr

/-- A remote service behaviour for one WHERE clause: the page returned
at a given resultOffset, or none when the HTTP call fails after
exhausting retries (http_get_json raising). -/
abbrev Service := Nat → Option Page

/-- The inner pagination loop of fetch_features for one strategy.
Returns the accumulated features together with true when the loop
exited normally, or the partial accumulation with false when a page
request raised.  Stops on an empty page, on reaching the 100000 safety
ceiling, or when the flag is false and the page was short. -/
def fetch_pages (svc : Service) (offset : Nat) (acc : List Feature) :
    List Feature × Bool :=
  match svc offset with
  | none => (acc, false)
  | some page =>
    if page.features.length = 0 then (acc, true)
    else if 100000 ≤ (acc ++ page.features).length then (acc ++ page.features, true)
    else if !page.exceededTransferLimit && page.features.length < PAGE_SIZE then
      (acc ++ page.features, true)
    else fetch_pages svc (offset + PAGE_SIZE) (acc ++ page.features)
termination_by 100000 - acc.length
decreasing_by
  simp only [List.length_append] at *
  omega

/-- The stop condition of the pagination loop, evaluated at one page
given the features accumulated before it. -/
def stop_condition (accLen : Nat) (page : Page) : Bool :=
  page.features.length = 0 ||
    100000 ≤ accLen + page.features.length ||
    (!page.exceededTransferLimit && page.features.length < PAGE_SIZE)

/-- The composite branch of the sort key of fetch_features (the tail
of source sort_key, split out as a named definition): year, month
(name mapped to its number, unrecognized to 0), day and hour, each
collapsed to 0 when falsy, combined positionally and negated.  none
marks the inputs on which the Python expression raises (a truthy year
string joins string repetition and then string-plus-int, a truthy day
or hour string must pass int()), which would abort list.sort. -/
def sort_key_year? (attrs : Attrs) : Option Rat :=
  match pyOr (attrsGet attrs "OCC_YEAR") (.vint 0) with
  | .vstr _ => none
  | v => numAsRat? v

/-- The month value of the sort key: a name is mapped through
MONTH_NAME_TO_NUM with default 0, other scalars pass through. -/
def sort_key_month (attrs : Attrs) : Val :=
  match attrsGet attrs "OCC_MONTH" with
  | .vstr s => .vint ((MONTH_NAME_TO_NUM.lookup s).getD 0)
  | v => v

def sort_key_composite (attrs : Attrs) : Option Rat :=
  let day := pyOr (attrsGet attrs "OCC_DAY") (.vint 0)
  let hour := pyOr (attrsGet attrs "OCC_HOUR") (.vint 0)
  match sort_key_year? attrs,
        pyInt? (pyOr (sort_key_month attrs) (.vint 0)),
        pyInt? (pyOr day (.vint 0)),
        pyInt? (pyOr hour (.vint 0)) with
  | some y, some m, some d, some h =>
    some (-(y * 100000000 + (m : Rat) * 1000000 + (d : Rat) * 10000 + (h : Rat) * 100))
  | _, _, _, _ => none

/-- The per-feature sort key of fetch_features (source: sort_key),
already negated as in the source so that an ascending sort yields
newest first: the negated epoch-millisecond date when OCC_DATE (or,
when that is falsy, REPORT_DATE) is numeric and above the epoch
threshold, else the negated composite. -/
def sort_key (f : Feature) : Option Rat :=
  let attrs := f.attributes
  let occ_date := pyOr (attrsGet attrs "OCC_DATE") (attrsGet attrs "REPORT_DATE")
  match numAsRat? occ_date with
  | some q => if q > 1000000000 then some (-q) else sort_key_composite attrs
  | none => sort_key_composite attrs

/-- Apply an Option-valued function across a list, failing as a whole
on the first failure, as the sort raising on any key does. -/
def mapOption? (g : α → Option β) : List α → Option (List β)
  | [] => some []
  | a :: l =>
    match g a, mapOption? g l with
    | some b, some bs => some (b :: bs)
    | _, _ => none

/-- The in-memory sort of fetch_features: stable sort ascending by the
negated key, hence newest first; none when computing some key raises. -/
def sort_features? (fs : List Feature) : Option (List Feature) :=
  match mapOption? (fun f => (sort_key f).map (fun k => (k, f))) fs with
  | none => none
  | some keyed =>
    some ((keyed.insertionSort (fun a b => a.1 ≤ b.1)).map Prod.snd)

/-- The strategy loop of fetch_features: each strategy resets the
accumulator and runs the pagination loop; the first strategy finishing
without an exception and with a nonempty accumulation is accepted; a
strategy that raises or accumulates nothing falls through to the next;
after the last strategy the accumulator keeps whatever the last
attempt gathered, even a partial accumulation left by an exception. -/
def try_strategies (svc : String → Service) : List (String × String) → List Feature
  | [] => []
  | [s] => (fetch_pages (svc s.1) 0 []).1
  | s :: rest₀ :: rest =>
    let res := fetch_pages (svc s.1) 0 []
    if res.2 && !res.1.isEmpty then res.1
    else try_strategies svc (rest₀ :: rest)

/-- Download all matching features (source: fetch_features, after field
discovery and strategy building): run the strategies in order and sort
the winning accumulation newest first.  An empty accumulation returns
the empty list without raising; none marks the in-memory sort raising
on a malformed key. -/
def fetch_features (svc : String → Service) (strategies : List (String × String)) :
    Option (List Feature) :=
  let all_features := try_strategies svc strategies
  if all_features.isEmpty then some []
  else sort_features? all_features

/-- The sort key as claim C5 of the specification words it, without
the implementation negation: the epoch-millisecond value itself when
the resolved date attribute is numeric and greater than 1000000000,
else the composite year*100000000 + month*1000000 + day*10000 +
hour*100 with the same defaulting.  Written from the claim text, to be
compared against sort_key. -/
def spec_sort_key_composite (attrs : Attrs) : Option Rat :=
  let day := pyOr (attrsGet attrs "OCC_DAY") (.vint 0)
  let hour := pyOr (attrsGet attrs "OCC_HOUR") (.vint 0)
  match sort_key_year? attrs,
        pyInt? (pyOr (sort_key_month attrs) (.vint 0)),
        pyInt? (pyOr day (.vint 0)),
        pyInt? (pyOr hour (.vint 0)) with
  | some y, some m, some d, some h =>
    some (y * 100000000 + (m : Rat) * 1000000 + (d : Rat) * 10000 + (h : Rat) * 100)
  | _, _, _, _ => none

/-- The specification-side sort key (claim C5 wording): newest features
have the largest key, so the fetched list must be descending in it. -/
def spec_sort_key (f : Feature) : Option Rat :=
  let attrs := f.attributes
  let occ_date := pyOr (attrsGet attrs "OCC_DATE") (attrsGet attrs "REPORT_DATE")
  match numAsRat? occ_date with
  | some q => if q > 1000000000 then some q else spec_sort_key_composite attrs
  | none => spec_sort_key_composite attrs

/-- A processing context fixing the category and clock data used by
the concrete test cases below. -/
def ctxTor : Ctx :=
  { theftType := "auto", cutoffYear := 2025, cutoffMonth := 4, nowYear := 2025 }

/-- A well-formed raw feature: valid Toronto coordinates in the
attribute fallback fields and a complete recent date. -/
def featValid : Feature :=
  { attributes := [("EVENT_UNIQUE_ID", .vstr "GO-1"), ("OCC_YEAR", .vint 2025),
                   ("OCC_MONTH", .vstr "June"), ("OCC_DAY", .vint 5), ("OCC_HOUR", .vint 10),
                   ("LAT_WGS84", .vfloat (43.7 : Rat)), ("LONG_WGS84", .vfloat (-79.4 : Rat))],
    geometry := [] }

/-- A feature with no usable coordinates at all: both resolve to 0. -/
def featZero : Feature :=
  { attributes := [], geometry := [] }

/-- The clean record that featValid becomes under ctxTor. -/
def recValid : CleanRecord :=
  { id := "auto-GO-1", type := "auto", date := "2025-06-05", year := 2025, month := 6,
    day := 5, hour := 10, neighbourhood := "Unknown", premiseType := "Unknown",
    lat := (43.7 : Rat), lng := (-79.4 : Rat), status := "Unknown" }

/-- A feature with valid coordinates whose year attribute is a truthy
string that int() rejects. -/
def featBadYear : Feature :=
  { attributes := [("OCC_YEAR", .vstr "N/A"),
                   ("LAT_WGS84", .vfloat (43.7 : Rat)), ("LONG_WGS84", .vfloat (-79.4 : Rat))],
    geometry := [] }

/-- A feature with valid coordinates and a valid recent year whose day
resolves through OCC_DOW to a weekday name, exactly the malformed-day
case named by the specification. -/
def featMonday : Feature :=
  { attributes := [("EVENT_UNIQUE_ID", .vstr "GO-42"), ("OCC_YEAR", .vint 2025),
                   ("OCC_MONTH", .vstr "June"), ("OCC_DOW", .vstr "Monday"),
                   ("LAT_WGS84", .vfloat (43.7 : Rat)), ("LONG_WGS84", .vfloat (-79.4 : Rat))],
    geometry := [] }

/-- A feature carrying only a recent year, used as page filler. -/
def featYear2025 : Feature :=
  { attributes := [("OCC_YEAR", .vint 2025)], geometry := [] }

/-- A service returning a full page at offset 0 and an empty page at
every later offset. -/
def svcFullThenEmpty : Service := fun offset =>
  if offset = 0 then
    some { features := List.replicate PAGE_SIZE featYear2025, exceededTransferLimit := false }
  else some { features := [], exceededTransferLimit := false }

/-- A service returning a full page at offset 0 and failing at every
later offset, distinguishing whether page 2 is requested. -/
def svcFullThenFail : Service := fun offset =>
  if offset = 0 then
    some { features := List.replicate PAGE_SIZE featYear2025, exceededTransferLimit := false }
  else none

/-- A service behaviour per WHERE clause: every clause except the
unconditional fallback errors; the fallback returns 10 features. -/
def svcErrThenTen : String → Service := fun w offset =>
  if w = "1=1" then
    if offset = 0 then
      some { features := List.replicate 10 featYear2025, exceededTransferLimit := false }
    else some { features := [], exceededTransferLimit := false }
  else none

/-- Features with distinct epoch-millisecond dates, for sorting. -/
def featD1 : Feature :=
  { attributes := [("OCC_DATE", .vint 1500000000000)], geometry := [] }

def featD2 : Feature :=
  { attributes := [("OCC_DATE", .vint 2000000000000)], geometry := [] }

def featD3 : Feature :=
  { attributes := [("OCC_DATE", .vint 3000000000000)], geometry := [] }

/-- A service whose first clause yields nothing and whose fallback
clause delivers three features at offset 0 with the more-data flag
set, then raises at offset PAGE_SIZE: an error mid-pagination after a
nonempty partial accumulation. -/
def svcPartialThenRaise : String → Service := fun w offset =>
  if w = "1=1" then
    if offset = 0 then
      some { features := [featD2, featD3, featD1], exceededTransferLimit := true }
    else none
  else some { features := [], exceededTransferLimit := false }

/-- The half-even rounding never goes below an integer lower bound of
its argument. -/
theorem le_roundHalfEven {q : Rat} {n : Int} (h : (n : Rat) ≤ q) :
    n ≤ roundHalfEven q := by
  have hf : n ≤ ⌊q⌋ := Int.le_floor.mpr h
  simp only [roundHalfEven]
  split_ifs <;> omega

/-- The half-even rounding never goes above an integer upper bound of
its argument. -/
theorem roundHalfEven_le {q : Rat} {n : Int} (h : q ≤ (n : Rat)) :
    roundHalfEven q ≤ n := by
  have hf : ⌊q⌋ ≤ n := by
    have h2 := Int.floor_le_floor h
    rwa [Int.floor_intCast] at h2
  have key : ¬ q - (⌊q⌋ : Rat) < 1 / 2 → ⌊q⌋ + 1 ≤ n := by
    intro hr
    rcases lt_or_eq_of_le hf with h1 | h1
    · omega
    · exfalso
      have hq : q ≤ (⌊q⌋ : Rat) := by rw [h1]; exact_mod_cast h
      have : q - (⌊q⌋ : Rat) ≤ 0 := by linarith
      exact hr (by linarith)
  simp only [roundHalfEven]
  split_ifs with h1 h2 h3
  · exact hf
  · exact key h1
  · exact hf
  · exact key h1

/-- round(x, 6) stays at or above any integer bound below x. -/
theorem le_pyRound6 {q : Rat} {n : Int} (h : (n : Rat) ≤ q) :
    (n : Rat) ≤ pyRound6 q := by
  have h1 : ((n * 1000000 : Int) : Rat) ≤ q * 1000000 := by
    push_cast
    nlinarith
  have h2 : (n * 1000000 : Int) ≤ roundHalfEven (q * 1000000) := le_roundHalfEven h1
  unfold pyRound6
  rw [le_div_iff₀ (by norm_num : (0 : Rat) < 1000000)]
  exact_mod_cast h2

/-- round(x, 6) stays at or below any integer bound above x. -/
theorem pyRound6_le {q : Rat} {n : Int} (h : q ≤ (n : Rat)) :
    pyRound6 q ≤ (n : Rat) := by
  have h1 : q * 1000000 ≤ ((n * 1000000 : Int) : Rat) := by
    push_cast
    nlinarith
  have h2 : roundHalfEven (q * 1000000) ≤ n * 1000000 := roundHalfEven_le h1
  unfold pyRound6
  rw [div_le_iff₀ (by norm_num : (0 : Rat) < 1000000)]
  exact_mod_cast h2

/-- A failing page request ends the pagination loop exceptionally,
leaving the accumulator as it stood. -/
theorem fetch_pages_none {svc : Service} {offset : Nat} {acc : List Feature}
    (h : svc offset = none) : fetch_pages svc offset acc = (acc, false) := by
  rw [fetch_pages, h]

/-- When the stop condition holds at a page, the pagination loop
returns there, with that page absorbed into the accumulator. -/
theorem fetch_pages_stop {svc : Service} {offset : Nat} {acc : List Feature} {page : Page}
    (h : svc offset = some page) (hs : stop_condition acc.length page = true) :
    fetch_pages svc offset acc = (acc ++ page.features, true) := by
  simp only [stop_condition, Bool.or_eq_true, decide_eq_true_eq, Bool.and_eq_true,
    Bool.not_eq_true'] at hs
  rw [fetch_pages, h]
  dsimp only
  split_ifs with hz h100 hshort
  · have : page.features = [] := List.length_eq_zero.mp hz
    simp [this]
  · rfl
  · rfl
  · exfalso
    rw [List.length_append] at h100
    rcases hs with (hs | hs) | hs
    · exact hz hs
    · exact h100 hs
    · exact hshort (by simp [hs.1, hs.2])

/-- When the stop condition fails at a page, the pagination loop
requests the next offset with the page absorbed into the accumulator. -/
theorem fetch_pages_go {svc : Service} {offset : Nat} {acc : List Feature} {page : Page}
    (h : svc offset = some page) (hs : stop_condition acc.length page = false) :
    fetch_pages svc offset acc = fetch_pages svc (offset + PAGE_SIZE) (acc ++ page.features) := by
  simp only [stop_condition, Bool.or_eq_false_iff, decide_eq_false_iff_not,
    Bool.and_eq_false_iff, Bool.not_eq_false'] at hs
  rw [fetch_pages, h]
  dsimp only
  split_ifs with hz h100 hshort
  · exact absurd hz hs.1.1
  · rw [List.length_append] at h100
    exact absurd h100 hs.1.2
  · exfalso
    rcases hs.2 with hs2 | hs2
    · rcases Bool.and_eq_true _ _ |>.mp hshort with ⟨he, -⟩
      rw [Bool.not_eq_true'] at he
      rw [he] at hs2
      cases hs2
    · rcases Bool.and_eq_true _ _ |>.mp hshort with ⟨-, hl⟩
      rw [decide_eq_true_eq] at hl
      exact hs2 hl
  · rfl

/-- The tail of the loop body never produces a bad-coordinate skip:
that counter is touched only by the two coordinate checks. -/
theorem emitOrSkip_ne_skipCoords (ctx : Ctx) (idx : Nat) (f : Feature) (lat lng : Rat) :
    emitOrSkip ctx idx f lat lng ≠ .skipCoords := by
  simp only [emitOrSkip]
  split
  · simp
  · split <;> simp

/-- An emitted record carries the rounded coordinates it was checked
with and the category-prefixed resolved identifier. -/
theorem emitOrSkip_emit_fields {ctx : Ctx} {idx : Nat} {f : Feature} {lat lng : Rat}
    {r : CleanRecord} (h : emitOrSkip ctx idx f lat lng = .emit r) :
    r.lat = pyRound6 lat ∧ r.lng = pyRound6 lng ∧
      r.id = ctx.theftType ++ "-" ++
        pyStr (_first_of f.attributes (FIELD_MAP "id_fields") (.vstr (toString idx))) := by
  simp only [emitOrSkip] at h
  split at h
  · cases h
  · split at h
    · cases h
      exact ⟨rfl, rfl, rfl⟩
    · cases h

/-- An emitted record has coordinates inside the Ontario bounding box
(before and after the 6-digit rounding). -/
theorem processOne_emit_bounds {ctx : Ctx} {idx : Nat} {f : Feature} {r : CleanRecord}
    (h : processOne ctx idx f = .emit r) :
    41 ≤ r.lat ∧ r.lat ≤ 57 ∧ -95 ≤ r.lng ∧ r.lng ≤ -73 := by
  simp only [processOne] at h
  split_ifs at h with hc1 hc2
  obtain ⟨hlat, hlng, -⟩ := emitOrSkip_emit_fields h
  obtain ⟨h41, h57, h95, h73⟩ := hc2
  refine ⟨?_, ?_, ?_, ?_⟩
  · rw [hlat]
    exact_mod_cast le_pyRound6 (n := 41) (by exact_mod_cast h41)
  · rw [hlat]
    exact_mod_cast pyRound6_le (n := 57) (by exact_mod_cast h57)
  · rw [hlng]
    exact_mod_cast le_pyRound6 (n := -95) (by exact_mod_cast h95)
  · rw [hlng]
    exact_mod_cast pyRound6_le (n := -73) (by exact_mod_cast h73)

/-- The loop body discards under the bad-coordinate counter exactly on
the features badCoords describes. -/
theorem processOne_skipCoords_iff (ctx : Ctx) (idx : Nat) (f : Feature) :
    processOne ctx idx f = .skipCoords ↔ badCoords f = true := by
  simp only [processOne, badCoords, decide_eq_true_eq]
  split_ifs with hc1 hc2
  · exact iff_of_true rfl (Or.inl hc1)
  · refine iff_of_false (emitOrSkip_ne_skipCoords ctx idx f _ _) ?_
    rintro (h | h)
    · exact hc1 h
    · exact h hc2
  · exact iff_of_true rfl (Or.inr hc2)

/-- Loop invariant of process_features: on a normal (exception-free)
run, the bad-coordinate counter advances by exactly the number of
bad-coordinate features consumed, and every record in the final list
either was already accumulated or was emitted by some iteration. -/
theorem processGo_ok (ctx : Ctx) :
    ∀ (fs : List Feature) (recs : List CleanRecord) (dc dd dx : Nat)
      (recs' : List CleanRecord) (dc' dd' dx' : Nat),
      processGo ctx fs recs dc dd dx = .ok (recs', dc', dd', dx') →
      dc' = dc + fs.countP badCoords ∧
        ∀ r ∈ recs', r ∈ recs ∨ ∃ n f, f ∈ fs ∧ processOne ctx n f = .emit r := by
  intro fs
  induction fs with
  | nil =>
    intro recs dc dd dx recs' dc' dd' dx' h
    simp only [processGo] at h
    cases h
    refine ⟨by simp, ?_⟩
    intro r hr
    exact Or.inl (List.mem_reverse.mp hr)
  | cons f fs ih =>
    intro recs dc dd dx recs' dc' dd' dx' h
    simp only [processGo] at h
    rcases hstep : processOne ctx recs.length f with ⟨r0⟩ | _ | _ | _
    · rw [hstep] at h
      obtain ⟨hdc, hmem⟩ := ih (r0 :: recs) dc dd dx recs' dc' dd' dx' h
      have hbad : badCoords f = false := by
        rcases hb : badCoords f with _ | _
        · rfl
        · exact absurd ((processOne_skipCoords_iff ctx recs.length f).mpr hb)
            (by rw [hstep]; intro hcon; cases hcon)
      constructor
      · rw [hdc, List.countP_cons, hbad]
        simp
      · intro r hr
        rcases hmem r hr with hr0 | hr0
        · rcases List.mem_cons.mp hr0 with he | he
          · exact Or.inr ⟨recs.length, f, List.mem_cons_self f fs, he ▸ hstep⟩
          · exact Or.inl he
        · obtain ⟨n, g, hg, he⟩ := hr0
          exact Or.inr ⟨n, g, List.mem_cons_of_mem f hg, he⟩
    · rw [hstep] at h
      obtain ⟨hdc, hmem⟩ := ih recs (dc + 1) dd dx recs' dc' dd' dx' h
      have hbad : badCoords f = true := (processOne_skipCoords_iff ctx recs.length f).mp hstep
      constructor
      · rw [hdc, List.countP_cons, hbad]
        simp
        omega
      · intro r hr
        rcases hmem r hr with hr0 | hr0
        · exact Or.inl hr0
        · obtain ⟨n, g, hg, he⟩ := hr0
          exact Or.inr ⟨n, g, List.mem_cons_of_mem f hg, he⟩
    · rw [hstep] at h
      obtain ⟨hdc, hmem⟩ := ih recs dc (dd + 1) dx recs' dc' dd' dx' h
      have hbad : badCoords f = false := by
        rcases hb : badCoords f with _ | _
        · rfl
        · exact absurd ((processOne_skipCoords_iff ctx recs.length f).mpr hb)
            (by rw [hstep]; intro hcon; cases hcon)
      constructor
      · rw [hdc, List.countP_cons, hbad]
        simp
      · intro r hr
        rcases hmem r hr with hr0 | hr0
        · exact Or.inl hr0
        · obtain ⟨n, g, hg, he⟩ := hr0
          exact Or.inr ⟨n, g, List.mem_cons_of_mem f hg, he⟩
    · rw [hstep] at h
      cases h

/-- The implemented composite key is the negation of the composite key
as the specification words it. -/
theorem sort_key_composite_eq_neg (attrs : Attrs) :
    sort_key_composite attrs = (spec_sort_key_composite attrs).map (fun k => -k) := by
  unfold sort_key_composite spec_sort_key_composite
  dsimp only
  cases sort_key_year? attrs <;>
    cases pyInt? (pyOr (sort_key_month attrs) (Val.vint 0)) <;>
      cases pyInt? (pyOr (pyOr (attrsGet attrs "OCC_DAY") (Val.vint 0)) (Val.vint 0)) <;>
        cases pyInt? (pyOr (pyOr (attrsGet attrs "OCC_HOUR") (Val.vint 0)) (Val.vint 0)) <;>
          simp

/-- The implemented sort key is exactly the negation of the key as the
specification describes it, on every feature. -/
theorem sort_key_eq_neg_spec (f : Feature) :
    sort_key f = (spec_sort_key f).map (fun k => -k) := by
  unfold sort_key spec_sort_key
  dsimp only
  cases numAsRat? (pyOr (attrsGet f.attributes "OCC_DATE") (attrsGet f.attributes "REPORT_DATE")) with
  | none => exact sort_key_composite_eq_neg f.attributes
  | some q =>
    dsimp only
    split_ifs with hq
    · simp
    · exact sort_key_composite_eq_neg f.attributes

/-- mapOption? over the keying function: on success the keyed list
projects back to the input and every pair stores the key of its
feature. -/
theorem mapOption_keyed :
    ∀ (fs : List Feature) (keyed : List (Rat × Feature)),
      mapOption? (fun f => (sort_key f).map (fun k => (k, f))) fs = some keyed →
      keyed.map Prod.snd = fs ∧ ∀ p ∈ keyed, sort_key p.2 = some p.1 := by
  intro fs
  induction fs with
  | nil =>
    intro keyed h
    simp only [mapOption?] at h
    cases h
    exact ⟨rfl, by simp⟩
  | cons f fs ih =>
    intro keyed h
    simp only [mapOption?] at h
    cases hk : sort_key f with
    | none => rw [hk] at h; cases h
    | some k =>
      rw [hk] at h
      cases hrest : mapOption? (fun f => (sort_key f).map (fun k => (k, f))) fs with
      | none => rw [hrest] at h; cases h
      | some bs =>
        rw [hrest] at h
        cases h
        obtain ⟨h1, h2⟩ := ih bs hrest
        refine ⟨by simp [h1], ?_⟩
        intro p hp
        rcases List.mem_cons.mp hp with he | he
        · rw [he]
          exact hk
        · exact h2 p he

/-- With a nonempty tail, the strategy loop step is: accept the
current accumulation when the pagination loop finished without an
exception and nonempty, else move to the next strategy. -/
theorem try_strategies_cons (svc : String → Service) (s : String × String)
    (rest : List (String × String)) (hr : rest ≠ []) :
    try_strategies svc (s :: rest) =
      (if (fetch_pages (svc s.1) 0 []).2 && !(fetch_pages (svc s.1) 0 []).1.isEmpty
       then (fetch_pages (svc s.1) 0 []).1
       else try_strategies svc rest) := by
  cases rest with
  | nil => cases hr rfl
  | cons t ts => rfl

/-- When every strategy accumulates nothing, the strategy loop returns
the empty list. -/
theorem try_strategies_all_empty (svc : String → Service) :
    ∀ (ss : List (String × String)),
      (∀ s ∈ ss, (fetch_pages (svc s.1) 0 []).1 = []) →
      try_strategies svc ss = []
  | [], _ => rfl
  | [s], h => by
    simp only [try_strategies]
    exact h s (by simp)
  | s :: t :: rest, h => by
    rw [try_strategies_cons svc s (t :: rest) (by simp)]
    rw [h s (by simp)]
    rw [show (((fetch_pages (svc s.1) 0 []).2 && !(List.isEmpty ([] : List Feature))) = false)
      from by simp]
    simp only [Bool.false_eq_true, if_false]
    exact try_strategies_all_empty svc (t :: rest) (fun x hx => h x (List.mem_cons_of_mem s hx))

/-- When every earlier strategy is rejected (raised, or accumulated
nothing), the strategy loop ends on the last strategy and returns
whatever its pagination attempt accumulated, whether or not that
attempt raised. -/
theorem try_strategies_last (svc : String → Service) :
    ∀ (pre : List (String × String)) (s : String × String),
      (∀ t ∈ pre,
        (fetch_pages (svc t.1) 0 []).2 = false ∨ (fetch_pages (svc t.1) 0 []).1 = []) →
      try_strategies svc (pre ++ [s]) = (fetch_pages (svc s.1) 0 []).1
  | [], s, _ => rfl
  | t :: pre, s, h => by
    rw [List.cons_append, try_strategies_cons svc t (pre ++ [s]) (by simp)]
    have hrej := h t (by simp)
    have hcond : ((fetch_pages (svc t.1) 0 []).2 && !(fetch_pages (svc t.1) 0 []).1.isEmpty) = false := by
      rcases hrej with hr | hr
      · rw [hr]
        rfl
      · rw [hr]
        simp
    rw [hcond]
    simp only [Bool.false_eq_true, if_false]
    exact try_strategies_last svc pre s (fun x hx => h x (List.mem_cons_of_mem t hx))

/-- Equality on Except results is decidable componentwise; needed to
evaluate the transformer on concrete feature lists. -/
instance {e a : Type} [DecidableEq e] [DecidableEq a] : DecidableEq (Except e a) := fun x y =>
  match x, y with
  | .error u, .error v =>
    if h : u = v then isTrue (by rw [h]) else isFalse (by intro hc; cases hc; exact h rfl)
  | .ok u, .ok v =>
    if h : u = v then isTrue (by rw [h]) else isFalse (by intro hc; cases hc; exact h rfl)
  | .error _, .ok _ => isFalse (by intro hc; cases hc)
  | .ok _, .error _ => isFalse (by intro hc; cases hc)

/-- Claim C1: for every input list of raw features and every category,
every record emitted by process_features has coordinates not both
zero, lying inside the bounding box 41 to 57 latitude and -95 to -73
longitude; and a raw feature whose resolved coordinates are (0,0) or
outside the box is skipped with the bad-coordinate counter
incremented, contributing nothing to the output: on a normal run the
bad-coordinate counter equals the number of badCoords features. -/
theorem c1_coordinate_invariant (ctx : Ctx) (fs : List Feature)
    (recs : List CleanRecord) (dc dd dx : Nat)
    (h : process_features ctx fs = .ok (recs, dc, dd, dx)) :
    (∀ r ∈ recs, ¬(r.lat = 0 ∧ r.lng = 0) ∧
        41 ≤ r.lat ∧ r.lat ≤ 57 ∧ -95 ≤ r.lng ∧ r.lng ≤ -73) ∧
      dc = fs.countP badCoords := by
  obtain ⟨hdc, hmem⟩ := processGo_ok ctx fs [] 0 0 0 recs dc dd dx h
  refine ⟨?_, by simpa using hdc⟩
  intro r hr
  rcases hmem r hr with hin | ⟨n, f, -, he⟩
  · exact absurd hin (List.not_mem_nil r)
  · obtain ⟨h41, h57, h95, h73⟩ := processOne_emit_bounds he
    refine ⟨?_, h41, h57, h95, h73⟩
    rintro ⟨hlat0, -⟩
    rw [hlat0] at h41
    norm_num at h41

theorem c1_coordinate_invariant_witness :
    (1 : Nat) = List.countP badCoords [featValid, featZero] :=
  (c1_coordinate_invariant ctxTor [featValid, featZero] [recValid] 1 0 0 (by decide)).2

/-- Claim C2 (bug evidence): a feature with valid coordinates whose
year is the truthy unparseable string N/A passes the window check (the
try/except keeps it, windowSkip is false), but record construction
re-runs int(year) outside any try block, so process_features raises
instead of keeping the record. -/
theorem c2_unparseable_year_raises :
    windowSkip ctxTor (.vstr "N/A") 1 = false ∧
      processOne ctxTor 0 featBadYear = .err ∧
      process_features ctxTor [featBadYear] = .error () := by
  refine ⟨rfl, by decide, by decide⟩

/-- Claim C6 (bug evidence): a feature with valid coordinates, a valid
recent date, and a weekday name resolved into the day field through
OCC_DOW (the malformed-day example the specification itself names)
makes record construction run int() on the weekday string outside any
try block: the exception escapes process_features. -/
theorem c6_weekday_day_raises :
    processOne ctxTor 0 featMonday = .err ∧
      process_features ctxTor [featMonday] = .error () := by
  refine ⟨by decide, by decide⟩

/-- Claim C7 (counterexample): two raw features carrying the same
EVENT_UNIQUE_ID both pass validation and are emitted with the
identical id auto-GO-1, so emitted ids are not pairwise distinct. -/
theorem c7_duplicate_ids_counterexample :
    (process_features ctxTor [featValid, featValid]).map (fun t => t.1.map CleanRecord.id)
        = .ok ["auto-GO-1", "auto-GO-1"] ∧
      ¬ (["auto-GO-1", "auto-GO-1"] : List String).Nodup := by
  refine ⟨by decide, by decide⟩

/-- Claim C7 (amended): every record emitted by the transformer has id
equal to the category tag, a hyphen, and the resolved record
identifier (first of EVENT_UNIQUE_ID and OBJECTID, defaulting to the
running index); nothing deduplicates equal resolved identifiers. -/
theorem c7_id_shape (ctx : Ctx) (idx : Nat) (f : Feature) (r : CleanRecord)
    (h : processOne ctx idx f = .emit r) :
    r.id = ctx.theftType ++ "-" ++
      pyStr (_first_of f.attributes (FIELD_MAP "id_fields") (.vstr (toString idx))) := by
  simp only [processOne] at h
  split_ifs at h
  exact (emitOrSkip_emit_fields h).2.2

theorem c7_id_shape_witness :
    recValid.id = ctxTor.theftType ++ "-" ++
      pyStr (_first_of featValid.attributes (FIELD_MAP "id_fields") (.vstr (toString 0))) :=
  c7_id_shape ctxTor 0 featValid recValid (by decide)

/-- Claim C8: the field resolver returns the value of the first
candidate key present with a non-null value and the caller default
when none is, stated as head-of-filter; with the two concrete
resolutions the specification gives. -/
theorem c8_first_of_resolution :
    (∀ (attrs : Attrs) (keys : List String) (dflt : Val),
        _first_of attrs keys dflt =
          (((keys.filter (fun k => attrsGet attrs k != .vnull)).head?).map
            (attrsGet attrs)).getD dflt) ∧
      _first_of [("OCC_YEAR", .vint 2024)] ["OCC_YEAR"] = .vint 2024 ∧
      _first_of [("HOOD_158", .vstr "Annex")] (FIELD_MAP "neighbourhood_fields")
          (.vstr "Unknown") = .vstr "Annex" := by
  refine ⟨?_, by decide, by decide⟩
  intro attrs keys dflt
  induction keys with
  | nil => rfl
  | cons k ks ih =>
    cases hv : attrsGet attrs k with
    | vnull => simp [_first_of, hv, ih]
    | vbool b => simp [_first_of, hv]
    | vint n => simp [_first_of, hv]
    | vfloat q => simp [_first_of, hv]
    | vstr s => simp [_first_of, hv]

/-- Claim C9: date normalization prefers the epoch-millisecond
rendering (1700000000000 gives the valid date 2023-11-14), else takes
the first 10 characters of a string raw date of length at least 10
(shown generally and on the specification example), else synthesizes
the zero-padded date from components (2024-03-15), else falls back to
January 1 of the current year when a component is unparseable. -/
theorem c9_date_normalization :
    parse_date_string (.vint 1700000000000) .vnull (.vint 11) .vnull 2025 = "2023-11-14" ∧
      (∀ (s : String) (year month day : Val) (nowYear : Int),
        10 ≤ s.length →
          parse_date_string (.vstr s) year month day nowYear = s.take 10) ∧
      parse_date_string (.vstr "2024-05-01T00:00:00") .vnull .vnull .vnull 2025
          = "2024-05-01" ∧
      parse_date_string .vnull (.vint 2024) (.vint 3) (.vint 15) 2025 = "2024-03-15" ∧
      (∀ (raw_date year month day : Val) (nowYear : Int),
        numAsRat? raw_date = none → (∀ s, raw_date ≠ .vstr s) →
          parse_date_string raw_date year month day nowYear
            = dateFromComponents year month day nowYear) ∧
      parse_date_string .vnull (.vstr "N/A") (.vint 1) (.vint 1) 2025 = "2025-01-01" := by
  refine ⟨by decide, ?_, by decide, by decide, ?_, by decide⟩
  · intro s year month day nowYear hlen
    unfold parse_date_string
    dsimp only [numAsRat?]
    rw [if_pos hlen]
  · intro raw_date year month day nowYear hnum hstr
    unfold parse_date_string
    rw [hnum]
    cases raw_date with
    | vnull => rfl
    | vbool b => simp [numAsRat?] at hnum
    | vint n => simp [numAsRat?] at hnum
    | vfloat q => simp [numAsRat?] at hnum
    | vstr s => exact absurd rfl (hstr s)

theorem c9_date_normalization_witness :
    parse_date_string (.vstr "2026-01-02T09:30:00") .vnull .vnull .vnull 2025
      = "2026-01-02" := by
  have h := c9_date_normalization.2.1 "2026-01-02T09:30:00" .vnull .vnull .vnull 2025
    (by decide)
  rw [h]
  decide

/-- Claim C3: for one strategy, the pagination loop stops at a page
exactly when the page is empty, or the accumulation has reached the
100000 ceiling, or the more-data flag is off and the page was shorter
than PAGE_SIZE; otherwise it requests the next offset.  On the
concrete service serving exactly PAGE_SIZE features at offset 0 and an
empty page afterwards, it accumulates exactly PAGE_SIZE features, and
it does request page 2 first: a service failing at page 2 instead
makes the same run end exceptionally. -/
theorem c3_pagination_stop :
    (∀ (svc : Service) (offset : Nat) (acc : List Feature) (page : Page),
        svc offset = some page →
        (stop_condition acc.length page = true →
            fetch_pages svc offset acc = (acc ++ page.features, true)) ∧
          (stop_condition acc.length page = false →
            fetch_pages svc offset acc =
              fetch_pages svc (offset + PAGE_SIZE) (acc ++ page.features))) ∧
      fetch_pages svcFullThenEmpty 0 [] = (List.replicate PAGE_SIZE featYear2025, true) ∧
      fetch_pages svcFullThenFail 0 [] = (List.replicate PAGE_SIZE featYear2025, false) := by
  have hlen : (List.replicate PAGE_SIZE featYear2025).length = PAGE_SIZE :=
    List.length_replicate _ _
  have hstop : stop_condition ([] : List Feature).length
      ⟨List.replicate PAGE_SIZE featYear2025, false⟩ = false := by
    simp only [stop_condition, hlen]
    decide
  refine ⟨fun svc offset acc page h => ⟨fetch_pages_stop h, fetch_pages_go h⟩, ?_, ?_⟩
  · have h0 : svcFullThenEmpty 0 = some ⟨List.replicate PAGE_SIZE featYear2025, false⟩ := rfl
    have h1 : svcFullThenEmpty (0 + PAGE_SIZE) = some ⟨[], false⟩ := rfl
    rw [fetch_pages_go h0 hstop]
    rw [fetch_pages_stop h1 (by simp [stop_condition])]
    simp
  · have h0 : svcFullThenFail 0 = some ⟨List.replicate PAGE_SIZE featYear2025, false⟩ := rfl
    have h1 : svcFullThenFail (0 + PAGE_SIZE) = none := rfl
    rw [fetch_pages_go h0 hstop]
    rw [fetch_pages_none h1]
    simp

theorem c3_pagination_stop_witness :
    fetch_pages svcFullThenEmpty PAGE_SIZE [] = ([], true) := by
  have h := (c3_pagination_stop.1 svcFullThenEmpty PAGE_SIZE [] ⟨[], false⟩ rfl).1
    (by simp [stop_condition])
  simpa using h

/-- Claim C4: a strategy that raises or accumulates nothing falls
through to the next strategy without propagating the error; the first
strategy finishing with a nonzero accumulation is accepted and no
further strategy is tried; exhausting all strategies with nothing
accumulated returns the empty list rather than raising; and on the
concrete service that errors under the first filter and serves 10
features under the unconditional fallback, exactly those 10 features
come back. -/
theorem c4_strategy_fallback :
    (∀ (svc : String → Service) (s t : String × String) (rest : List (String × String)),
        (fetch_pages (svc s.1) 0 []).2 = false ∨ (fetch_pages (svc s.1) 0 []).1 = [] →
        try_strategies svc (s :: t :: rest) = try_strategies svc (t :: rest)) ∧
      (∀ (svc : String → Service) (s : String × String) (rest : List (String × String))
          (acc : List Feature),
        fetch_pages (svc s.1) 0 [] = (acc, true) → acc ≠ [] →
        try_strategies svc (s :: rest) = acc) ∧
      (∀ (svc : String → Service) (strategies : List (String × String)),
        (∀ s ∈ strategies, (fetch_pages (svc s.1) 0 []).1 = []) →
        fetch_features svc strategies = some []) ∧
      fetch_features svcErrThenTen
          [("OCC_YEAR >= 2025", "year filter"), ("1=1", "unfiltered (all records)")]
        = some (List.replicate 10 featYear2025) := by
  refine ⟨?_, ?_, ?_, ?_⟩
  · intro svc s t rest h
    rw [try_strategies_cons svc s (t :: rest) (by simp)]
    rcases h with h | h
    · rw [h]
      rfl
    · rw [h]
      simp
  · intro svc s rest acc hfp hne
    cases rest with
    | nil =>
      simp only [try_strategies]
      rw [hfp]
    | cons t ts =>
      rw [try_strategies_cons svc s (t :: ts) (by simp), hfp]
      simp [hne]
  · intro svc strategies hall
    simp only [fetch_features]
    rw [try_strategies_all_empty svc strategies hall]
    rfl
  · have h1 : fetch_pages (svcErrThenTen "OCC_YEAR >= 2025") 0 [] = ([], false) :=
      fetch_pages_none rfl
    have h2 : fetch_pages (svcErrThenTen "1=1") 0 []
        = ([] ++ List.replicate 10 featYear2025, true) :=
      fetch_pages_stop rfl (by decide)
    rw [List.nil_append] at h2
    simp only [fetch_features]
    rw [try_strategies_cons svcErrThenTen _ _ (by simp), h1]
    simp only [Bool.false_and, Bool.false_eq_true, if_false]
    rw [show try_strategies svcErrThenTen [("1=1", "unfiltered (all records)")]
        = List.replicate 10 featYear2025 from by simp only [try_strategies]; rw [h2]]
    rw [show (List.replicate 10 featYear2025).isEmpty = false from rfl]
    simp only [Bool.false_eq_true, if_false]
    decide

theorem c4_strategy_fallback_witness :
    try_strategies svcErrThenTen [("1=1", "unfiltered (all records)")]
      = List.replicate 10 featYear2025 :=
  c4_strategy_fallback.2.1 svcErrThenTen ("1=1", "unfiltered (all records)") []
    (List.replicate 10 featYear2025)
    (by
      have h2 : fetch_pages (svcErrThenTen "1=1") 0 []
          = ([] ++ List.replicate 10 featYear2025, true) :=
        fetch_pages_stop rfl (by decide)
      simpa using h2)
    (by decide)

/-- Claim C10: when every strategy before the last is rejected and the
last one raises mid-pagination with a nonempty partial accumulation,
fetch_features does not discard that accumulation: it sorts and
returns it exactly as if the strategy had succeeded. -/
theorem c10_partial_accumulation (svc : String → Service)
    (pre : List (String × String)) (s : String × String) (acc out : List Feature)
    (hpre : ∀ t ∈ pre,
      (fetch_pages (svc t.1) 0 []).2 = false ∨ (fetch_pages (svc t.1) 0 []).1 = [])
    (hlast : fetch_pages (svc s.1) 0 [] = (acc, false))
    (hne : acc ≠ [])
    (hsort : sort_features? acc = some out) :
    fetch_features svc (pre ++ [s]) = some out := by
  have hts : try_strategies svc (pre ++ [s]) = acc := by
    rw [try_strategies_last svc pre s hpre, hlast]
  simp only [fetch_features]
  rw [hts]
  rw [show acc.isEmpty = false from by
    cases acc with
    | nil => cases hne rfl
    | cons a l => rfl]
  simp only [Bool.false_eq_true, if_false]
  exact hsort

theorem c10_partial_accumulation_witness :
    fetch_features svcPartialThenRaise [("OCC_YEAR >= 2025", "year filter"), ("1=1", "all")]
      = some [featD3, featD2, featD1] := by
  have happ : [("OCC_YEAR >= 2025", "year filter"), ("1=1", "all")]
      = [("OCC_YEAR >= 2025", "year filter")] ++ [("1=1", "all")] := rfl
  rw [happ]
  refine c10_partial_accumulation svcPartialThenRaise _ _ [featD2, featD3, featD1]
    [featD3, featD2, featD1] ?_ ?_ (by decide) (by decide)
  · intro t ht
    have : t = ("OCC_YEAR >= 2025", "year filter") := by
      simpa using ht
    rw [this]
    right
    rw [show fetch_pages (svcPartialThenRaise "OCC_YEAR >= 2025") 0 []
        = ([] ++ ([] : List Feature), true) from fetch_pages_stop rfl (by decide)]
    rfl
  · rw [show fetch_pages (svcPartialThenRaise "1=1") 0 []
        = fetch_pages (svcPartialThenRaise "1=1") (0 + PAGE_SIZE)
            ([] ++ [featD2, featD3, featD1]) from fetch_pages_go rfl (by decide)]
    rw [fetch_pages_none rfl]
    rfl

/-- Claim C5: the implemented per-feature key is the negation of the
key the specification describes, and every successfully sorted fetch
result is a permutation of its input arranged descending (newest
first) in the specification key. -/
theorem c5_sorted_descending :
    (∀ f : Feature, sort_key f = (spec_sort_key f).map (fun k => -k)) ∧
      ∀ (fs out : List Feature), sort_features? fs = some out →
        out.Perm fs ∧
          out.Pairwise (fun a b =>
            ∀ ka kb, spec_sort_key a = some ka → spec_sort_key b = some kb → kb ≤ ka) := by
  refine ⟨sort_key_eq_neg_spec, ?_⟩
  intro fs out h
  simp only [sort_features?] at h
  cases hm : mapOption? (fun f => (sort_key f).map (fun k => (k, f))) fs with
  | none => rw [hm] at h; cases h
  | some keyed =>
    rw [hm] at h
    cases h
    obtain ⟨hsnd, hkeys⟩ := mapOption_keyed fs keyed hm
    have hperm := List.perm_insertionSort (fun (a b : Rat × Feature) => a.1 ≤ b.1) keyed
    constructor
    · have hmap := hperm.map Prod.snd
      rw [hsnd] at hmap
      exact hmap
    · haveI : IsTotal (Rat × Feature) (fun a b => a.1 ≤ b.1) := ⟨fun a b => le_total a.1 b.1⟩
      haveI : IsTrans (Rat × Feature) (fun a b => a.1 ≤ b.1) :=
        ⟨fun a b c hab hbc => le_trans hab hbc⟩
      have hsorted := List.sorted_insertionSort (fun (a b : Rat × Feature) => a.1 ≤ b.1) keyed
      rw [List.pairwise_map]
      refine List.Pairwise.imp_of_mem ?_ hsorted
      intro p q hp hq hpq ka kb hka hkb
      have hp2 : sort_key p.2 = some p.1 := hkeys p ((List.mem_insertionSort _).mp hp)
      have hq2 : sort_key q.2 = some q.1 := hkeys q ((List.mem_insertionSort _).mp hq)
      rw [sort_key_eq_neg_spec, hka] at hp2
      rw [sort_key_eq_neg_spec, hkb] at hq2
      simp only [Option.map_some', Option.some.injEq] at hp2 hq2
      have hle : p.1 ≤ q.1 := hpq
      linarith

theorem c5_sorted_descending_witness :
    ([featD3, featD2, featD1] : List Feature).Perm [featD2, featD3, featD1] :=
  (c5_sorted_descending.2 [featD2, featD3, featD1] [featD3, featD2, featD1] (by decide)).1
